import Mathlib

/-!
Shallow embedding of the invoice-reader front end (main page component and
its helpers) and proofs of the specification claims about it.

The embedded operations are:
  * `sanitizeInvoiceNumber` — the digits-only sanitizer;
  * `handleFileSelection`   — the file-picker change handler with its
    10-file cap and (name, size) deduplication;
  * `extractInvoiceData`    — the extraction gateway call, as a function of
    the fetch outcome and the JSON parse of the candidate text;
  * `runExecutor` / `promiseAll` / `processInvoices` — the per-file promise
    executor, the join, and the batch orchestrator;
  * `settleInOrder`         — the positional slot-filling semantics of the
    joint await, parameterised by task completion order;
  * `downloadExcel`         — the spreadsheet export.
-/

/-- Structure of one extracted record, mirroring `ExtractedInvoiceData`. -/
structure ExtractedInvoiceData where
  fileName : String
  invoiceNumber : String
  companyNumber : String
  date : String
  totalAmount : String
deriving DecidableEq

/-- Embeds `sanitizeInvoiceNumber`: `(raw || '').replace(/\D+/g, '')`.
Replacing every maximal run of non-digits by the empty string keeps exactly
the decimal-digit characters of the input, in order; on the empty string the
`raw || ''` guard is the identity. -/
def sanitizeInvoiceNumber (raw : String) : String :=
  ⟨raw.data.filter Char.isDigit⟩

/-- A string made of decimal digits only (the `^[0-9]*$` pattern). -/
def digitsOnly (s : String) : Bool :=
  s.data.all Char.isDigit

/-- Name and size of a selected file (the two fields the handler reads). -/
structure FileMeta where
  name : String
  size : Nat
deriving DecidableEq

/-- The (name, size) key that deduplication compares. -/
def keyOf (f : FileMeta) : String × Nat :=
  (f.name, f.size)

/-- Pairwise-distinct (name, size) pairs in a file list. -/
def distinctKeys (l : List FileMeta) : Prop :=
  (l.map keyOf).Nodup

instance (l : List FileMeta) : Decidable (distinctKeys l) := by
  unfold distinctKeys; infer_instance

/-- The component state touched by `handleFileSelection`. -/
structure SelectionState where
  selectedFiles : List FileMeta
  error : String
deriving DecidableEq

/-- The cap rejection message built at line 99 of the handler. -/
def capErrorMessage (have_ : Nat) (adding : Nat) : String :=
  "Cannot add " ++ toString adding ++
    " file(s). Maximum of 10 files allowed. Currently have " ++
    toString have_ ++ " files selected."

/-- The duplicate filter: keep the chosen files whose (name, size) pair
matches no already-selected file. -/
def filesToAdd (selectedFiles : List FileMeta) (newFiles : List FileMeta) :
    List FileMeta :=
  newFiles.filter fun newFile =>
    ! selectedFiles.any fun existingFile =>
        existingFile.name == newFile.name && existingFile.size == newFile.size

/-- Embeds `handleFileSelection`: guard on a non-empty chosen batch, reject
above the 10-file cap with no mutation, filter out (name, size) duplicates
of the existing selection, and append whatever is left. -/
def handleFileSelection (st : SelectionState) (newFiles : List FileMeta) :
    SelectionState :=
  if 0 < newFiles.length then
    if 10 < st.selectedFiles.length + newFiles.length then
      { st with error := capErrorMessage st.selectedFiles.length newFiles.length }
    else
      if 0 < (filesToAdd st.selectedFiles newFiles).length then
        { selectedFiles := st.selectedFiles ++ filesToAdd st.selectedFiles newFiles,
          error := "" }
      else
        st
  else
    st

/-- Outcome of the `FileReader` on one file: `onload` fires with the data
URL whose base64 part (after the comma split) may be absent, or `onerror`
fires. -/
inductive ReadOutcome where
  | onload (base64ImageData : Option String)
  | onerror
deriving DecidableEq

/-- The four extracted fields (the record minus `fileName`). -/
structure ExtractedFields where
  invoiceNumber : String
  companyNumber : String
  date : String
  totalAmount : String
deriving DecidableEq

/-- Shape of the `/api/extract` response as the gateway inspects it:
`ok`/`status` of the HTTP response, its error text when not ok, and the
first candidate's first content part text when present. -/
structure ApiResponse where
  ok : Bool
  status : Nat
  errText : String
  candidateText : Option String

/-- Embeds `extractInvoiceData` as a function of the fetch outcome (the
`fetch` promise may itself reject) and of `JSON.parse` on the candidate
text (which may throw, i.e. return `none`): a non-ok response throws
"Server extraction failed", a missing candidate text throws "No structured
result from model", otherwise the parsed fields are returned. -/
def extractInvoiceData (fetchOutcome : Except String ApiResponse)
    (parse : String → Option ExtractedFields) : Except String ExtractedFields :=
  match fetchOutcome with
  | .error e => .error e
  | .ok response =>
    if response.ok then
      match response.candidateText with
      | some text =>
        match parse text with
        | some fields => .ok fields
        | none => .error "JSON parse error"
      | none => .error "No structured result from model"
    else
      .error ("Server extraction failed: " ++ response.errText)

/-- One batch slot: a selected file together with the environment's
response to its read and to its extraction call. -/
structure FileSlot where
  file : FileMeta
  read : ReadOutcome
  fetch : Except String ApiResponse
  parse : String → Option ExtractedFields

/-- Fate of a promise once its executor has run. -/
inductive PromiseFate (α : Type) where
  | resolved (value : α)
  | rejected (reason : String)
deriving DecidableEq

/-- The all-"Error" record resolved on every per-file failure path. -/
def errorRecord (fileName : String) : ExtractedInvoiceData :=
  { fileName := fileName, invoiceNumber := "Error", companyNumber := "Error",
    date := "Error", totalAmount := "Error" }

/-- Embeds the per-file promise executor inside `processInvoices`: on
`onload` with a base64 payload the extraction is attempted and a thrown
extraction resolves the all-"Error" record; a missing payload and a read
error also resolve the all-"Error" record. Every path calls `resolve`. -/
def runExecutor (slot : FileSlot) : PromiseFate ExtractedInvoiceData :=
  match slot.read with
  | .onload (some _base64ImageData) =>
    match extractInvoiceData slot.fetch slot.parse with
    | .ok d =>
      .resolved { fileName := slot.file.name, invoiceNumber := d.invoiceNumber,
                  companyNumber := d.companyNumber, date := d.date,
                  totalAmount := d.totalAmount }
    | .error _ => .resolved (errorRecord slot.file.name)
  | .onload none => .resolved (errorRecord slot.file.name)
  | .onerror => .resolved (errorRecord slot.file.name)

/-- The record a slot's executor resolves with (the value inside
`runExecutor`'s fate). -/
def executorRecord (slot : FileSlot) : ExtractedInvoiceData :=
  match slot.read with
  | .onload (some _base64ImageData) =>
    match extractInvoiceData slot.fetch slot.parse with
    | .ok d =>
      { fileName := slot.file.name, invoiceNumber := d.invoiceNumber,
        companyNumber := d.companyNumber, date := d.date,
        totalAmount := d.totalAmount }
    | .error _ => errorRecord slot.file.name
  | .onload none => errorRecord slot.file.name
  | .onerror => errorRecord slot.file.name

/-- Embeds `Promise.all`: the joint promise resolves with the list of
values in input position order once every fate is a resolution, and
rejects as soon as some fate is a rejection. -/
def promiseAll : List (PromiseFate α) → PromiseFate (List α)
  | [] => .resolved []
  | .rejected e :: _ => .rejected e
  | .resolved v :: rest =>
    match promiseAll rest with
    | .resolved vs => .resolved (v :: vs)
    | .rejected e => .rejected e

/-- Sanitizer pass applied to each settled record (lines 176-179). -/
def sanitizeRecord (r : ExtractedInvoiceData) : ExtractedInvoiceData :=
  { r with invoiceNumber := sanitizeInvoiceNumber r.invoiceNumber }

/-- Outcome of one run of the batch orchestrator. -/
inductive BatchOutcome where
  | noFilesError
  | batchError
  | results (records : List ExtractedInvoiceData)

/-- Embeds `processInvoices`: an empty selection signals "No files
selected"; otherwise per-file promises are created over the selected
files, awaited jointly, the sanitizer is mapped over the settled records,
and a rejection of the joint await falls into the batch-level catch. -/
def processInvoices (slots : List FileSlot) : BatchOutcome :=
  if slots.length = 0 then
    .noFilesError
  else
    match promiseAll (slots.map runExecutor) with
    | .resolved results => .results (results.map sanitizeRecord)
    | .rejected _ => .batchError

/-- Positional semantics of the joint await: the results array has one
slot per task, each task writes its own value into its own input-position
slot when it completes, and tasks complete in the order given by
`order`. A slot never written stays `none` (that task is still pending). -/
def settleInOrder (records : List α) (order : List Nat) : List (Option α) :=
  order.foldl (fun acc i => acc.set i records[i]?)
    (List.replicate records.length none)

/-- One sheet row: the ordered association list `json_to_sheet` receives
for one record, with the five column headers as keys (lines 257-263). -/
def toSheetRow (item : ExtractedInvoiceData) : List (String × String) :=
  [("Invoice Number", item.invoiceNumber),
   ("Company Number", item.companyNumber),
   ("Date", item.date),
   ("Total Amount", item.totalAmount),
   ("Source File", item.fileName)]

/-- Reading `r['Source File'] || ''` off a sheet row. -/
def sourceFileOf (row : List (String × String)) : String :=
  (row.lookup "Source File").getD ""

/-- The workbook file `XLSX.writeFile` is handed: file name, sheet name,
the sheet rows, and the `!cols` width list. -/
structure ExcelFile where
  fileName : String
  sheetName : String
  rows : List (List (String × String))
  colWidths : List Nat

/-- Result of a `downloadExcel` call: an inline error message with no file
written, or a written file. -/
inductive DownloadResult where
  | errorMsg (msg : String)
  | written (file : ExcelFile)

/-- Embeds `downloadExcel`: bail out with an inline error while the XLSX
script has not loaded or when there is no extracted data; otherwise build
one row per record, size the last column by a `reduce` of the source-file
name lengths with floor 10, and write `InvoiceData.xlsx` with a single
sheet named `Invoices`. `xlsxLoaded` is `typeof XLSX !== 'undefined'`. -/
def downloadExcel (xlsxLoaded : Bool) (extractedData : List ExtractedInvoiceData) :
    DownloadResult :=
  if !xlsxLoaded then
    .errorMsg "Excel library is still loading. Please try again in a moment."
  else if extractedData.length = 0 then
    .errorMsg "No data to export."
  else
    let sheetData := extractedData.map toSheetRow
    let max_width := sheetData.foldl (fun w r => max w (sourceFileOf r).length) 10
    .written { fileName := "InvoiceData.xlsx", sheetName := "Invoices",
               rows := sheetData,
               colWidths := [20, 20, 15, 15, max_width] }

/-! Helper lemmas shared by the claim theorems. -/

theorem runExecutor_eq (slot : FileSlot) :
    runExecutor slot = .resolved (executorRecord slot) := by
  unfold runExecutor executorRecord
  cases hr : slot.read with
  | onerror => rfl
  | onload b =>
    cases b with
    | none => rfl
    | some payload =>
      cases hx : extractInvoiceData slot.fetch slot.parse <;> rfl

theorem executorRecord_fileName (slot : FileSlot) :
    (executorRecord slot).fileName = slot.file.name := by
  unfold executorRecord
  cases hr : slot.read with
  | onerror => rfl
  | onload b =>
    cases b with
    | none => rfl
    | some payload =>
      cases hx : extractInvoiceData slot.fetch slot.parse <;> rfl

theorem promiseAll_map_resolved (l : List α) :
    promiseAll (l.map PromiseFate.resolved) = .resolved l := by
  induction l with
  | nil => rfl
  | cons x xs ih => simp [promiseAll, ih]

theorem map_runExecutor (slots : List FileSlot) :
    slots.map runExecutor = (slots.map executorRecord).map PromiseFate.resolved := by
  rw [List.map_map]
  exact List.map_congr_left fun s _ => runExecutor_eq s

theorem processInvoices_eq (slots : List FileSlot) (h : slots ≠ []) :
    processInvoices slots
      = .results ((slots.map executorRecord).map sanitizeRecord) := by
  unfold processInvoices
  rw [if_neg (fun hl => h (List.length_eq_zero.mp hl)), map_runExecutor,
    promiseAll_map_resolved]

theorem settle_foldl_length (records : List α) (order : List Nat)
    (acc : List (Option α)) :
    (order.foldl (fun acc i => acc.set i records[i]?) acc).length = acc.length := by
  induction order generalizing acc with
  | nil => rfl
  | cons i rest ih => rw [List.foldl_cons, ih, List.length_set]

theorem settle_foldl_not_mem (records : List α) (order : List Nat)
    (acc : List (Option α)) (j : Nat) (hj : j ∉ order) :
    (order.foldl (fun acc i => acc.set i records[i]?) acc)[j]? = acc[j]? := by
  induction order generalizing acc with
  | nil => rfl
  | cons i rest ih =>
    rw [List.foldl_cons, ih _ (fun h => hj (List.mem_cons_of_mem _ h))]
    exact List.getElem?_set_ne fun h => hj (by rw [← h]; exact List.mem_cons_self i rest)

theorem settle_foldl_mem (records : List α) (order : List Nat)
    (acc : List (Option α)) (j : Nat) (hj : j ∈ order)
    (hlen : acc.length = records.length) (hjlt : j < records.length) :
    (order.foldl (fun acc i => acc.set i records[i]?) acc)[j]? = some records[j]? := by
  induction order generalizing acc with
  | nil => cases hj
  | cons i rest ih =>
    rw [List.foldl_cons]
    by_cases hjr : j ∈ rest
    · exact ih _ hjr (by rw [List.length_set, hlen])
    · have hji : j = i := by
        rcases List.mem_cons.mp hj with h | h
        · exact h
        · exact absurd h hjr
      subst hji
      rw [settle_foldl_not_mem records rest _ j hjr]
      exact List.getElem?_set_self (hlen ▸ hjlt)

theorem settleInOrder_complete (records : List α) (order : List Nat)
    (hcover : ∀ j, j < records.length → j ∈ order) :
    settleInOrder records order = records.map some := by
  apply List.ext_getElem?
  intro j
  by_cases hj : j < records.length
  · rw [settleInOrder,
      settle_foldl_mem records order _ j (hcover j hj) (List.length_replicate _ _) hj]
    simp [List.getElem?_eq_getElem hj]
  · have h1 : (settleInOrder records order).length ≤ j := by
      rw [settleInOrder, settle_foldl_length, List.length_replicate]
      exact Nat.le_of_not_lt hj
    have h2 : (records.map some).length ≤ j := by
      rw [List.length_map]; exact Nat.le_of_not_lt hj
    rw [List.getElem?_eq_none h1, List.getElem?_eq_none h2]

theorem settleInOrder_pending (records : List α) (order : List Nat)
    (j : Nat) (hjlt : j < records.length) (hj : j ∉ order) :
    (settleInOrder records order)[j]? = some none := by
  rw [settleInOrder, settle_foldl_not_mem records order _ j hj]
  simp [hjlt]

theorem foldl_max_init_le (f : α → Nat) (l : List α) (init : Nat) :
    init ≤ l.foldl (fun w r => max w (f r)) init := by
  induction l generalizing init with
  | nil => exact Nat.le_refl _
  | cons x xs ih =>
    rw [List.foldl_cons]
    exact Nat.le_trans (Nat.le_max_left _ _) (ih _)

theorem foldl_max_elem_le (f : α → Nat) (l : List α) (init : Nat)
    (r : α) (hr : r ∈ l) :
    f r ≤ l.foldl (fun w r => max w (f r)) init := by
  induction l generalizing init with
  | nil => cases hr
  | cons x xs ih =>
    rw [List.foldl_cons]
    rcases List.mem_cons.mp hr with h | h
    · subst h
      exact Nat.le_trans (Nat.le_max_right _ _) (foldl_max_init_le f xs _)
    · exact ih _ h

theorem foldl_max_eq_init_or_elem (f : α → Nat) (l : List α) (init : Nat) :
    l.foldl (fun w r => max w (f r)) init = init ∨
      ∃ r ∈ l, l.foldl (fun w r => max w (f r)) init = f r := by
  induction l generalizing init with
  | nil => exact Or.inl rfl
  | cons x xs ih =>
    rw [List.foldl_cons]
    rcases ih (max init (f x)) with h | ⟨r, hr, h⟩
    · by_cases hc : init ≤ f x
      · exact Or.inr ⟨x, List.mem_cons_self x xs, by rw [h, Nat.max_eq_right hc]⟩
      · exact Or.inl (by rw [h, Nat.max_eq_left (Nat.le_of_not_le hc)])
    · exact Or.inr ⟨r, List.mem_cons_of_mem _ hr, h⟩

theorem sourceFileOf_toSheetRow (item : ExtractedInvoiceData) :
    sourceFileOf (toSheetRow item) = item.fileName := by
  rfl

theorem cap_reject (st : SelectionState) (newFiles : List FileMeta)
    (hne : newFiles ≠ [])
    (hcap : 10 < st.selectedFiles.length + newFiles.length) :
    handleFileSelection st newFiles =
      { st with error := capErrorMessage st.selectedFiles.length newFiles.length } := by
  unfold handleFileSelection
  rw [if_pos (List.length_pos.mpr hne), if_pos hcap]

theorem mem_filesToAdd {selected newFiles : List FileMeta} {f : FileMeta} :
    f ∈ filesToAdd selected newFiles ↔
      f ∈ newFiles ∧ ∀ e ∈ selected, keyOf e ≠ keyOf f := by
  unfold filesToAdd
  rw [List.mem_filter]
  constructor
  · rintro ⟨hmem, hcond⟩
    refine ⟨hmem, fun e he hk => ?_⟩
    have h1 : (e.name == f.name && e.size == f.size) = true := by
      have : e.name = f.name ∧ e.size = f.size := by
        have := congrArg Prod.fst hk
        have := congrArg Prod.snd hk
        exact ⟨by assumption, by assumption⟩
      simp [this.1, this.2]
    have h2 : selected.any (fun e => e.name == f.name && e.size == f.size) = true :=
      List.any_eq_true.mpr ⟨e, he, h1⟩
    rw [h2] at hcond
    cases hcond
  · rintro ⟨hmem, hcond⟩
    refine ⟨hmem, ?_⟩
    rw [Bool.not_eq_true']
    rw [← Bool.not_eq_true]
    intro hany
    rcases List.any_eq_true.mp hany with ⟨e, he, hcondE⟩
    rcases Bool.and_eq_true_iff.mp hcondE with ⟨hn, hs⟩
    exact hcond e he (by
      unfold keyOf
      rw [eq_of_beq hn, eq_of_beq hs])

theorem digitsOnly_sanitize (s : String) :
    digitsOnly (sanitizeInvoiceNumber s) = true := by
  unfold digitsOnly sanitizeInvoiceNumber
  rw [List.all_eq_true]
  intro c hc
  exact (List.mem_filter.mp hc).2

/-! Concrete slots used by the witnesses: a successful extraction, a
second successful extraction, an HTTP 429 rejection, and a read error. -/

def okSlot : FileSlot :=
  { file := ⟨"a.jpg", 100⟩, read := .onload (some "payloadA"),
    fetch := .ok { ok := true, status := 200, errText := "",
                   candidateText := some "candidateA" },
    parse := fun _ => some ⟨"INV-1001", "ABN 12 345 678 901", "12/03/2024", "$1,234.50"⟩ }

def okSlot2 : FileSlot :=
  { file := ⟨"d.jpg", 400⟩, read := .onload (some "payloadD"),
    fetch := .ok { ok := true, status := 200, errText := "",
                   candidateText := some "candidateD" },
    parse := fun _ => some ⟨"7", "N/A", "N/A", "N/A"⟩ }

def rateLimitedSlot : FileSlot :=
  { file := ⟨"b.jpg", 200⟩, read := .onload (some "payloadB"),
    fetch := .ok { ok := false, status := 429, errText := "Too Many Requests",
                   candidateText := none },
    parse := fun _ => none }

def readFailSlot : FileSlot :=
  { file := ⟨"c.jpg", 300⟩, read := .onerror,
    fetch := .error "never fetched", parse := fun _ => none }

/-! Claim theorems. -/

/-- C4: `sanitizeInvoiceNumber` returns exactly the decimal-digit
characters of its input in their original order (a subsequence of the
input made of digits only), and the empty string maps to the empty
string; the function is a total Lean function, hence pure with no
failure mode. -/
theorem sanitizeInvoiceNumber_spec (s : String) :
    (sanitizeInvoiceNumber s).data = s.data.filter Char.isDigit ∧
    List.Sublist (sanitizeInvoiceNumber s).data s.data ∧
    digitsOnly (sanitizeInvoiceNumber s) = true ∧
    sanitizeInvoiceNumber "" = "" :=
  ⟨rfl, List.filter_sublist s.data, digitsOnly_sanitize s, rfl⟩

/-- C5: when the already-selected files plus the newly chosen batch would
exceed the 10-file cap, `handleFileSelection` reports the cap error and
leaves the existing selection unchanged. -/
theorem fileCap_rejects_unchanged (st : SelectionState) (newFiles : List FileMeta)
    (hne : newFiles ≠ [])
    (hcap : 10 < st.selectedFiles.length + newFiles.length) :
    (handleFileSelection st newFiles).selectedFiles = st.selectedFiles ∧
    (handleFileSelection st newFiles).error =
      capErrorMessage st.selectedFiles.length newFiles.length := by
  rw [cap_reject st newFiles hne hcap]
  exact ⟨rfl, rfl⟩

/-- Witness for C5: one selected file plus ten newly chosen files is
rejected with the cap message and no mutation. -/
theorem fileCap_rejects_unchanged_w :
    (handleFileSelection ⟨[⟨"a.jpg", 100⟩], ""⟩
      [⟨"b0", 1⟩, ⟨"b1", 1⟩, ⟨"b2", 1⟩, ⟨"b3", 1⟩, ⟨"b4", 1⟩,
       ⟨"b5", 1⟩, ⟨"b6", 1⟩, ⟨"b7", 1⟩, ⟨"b8", 1⟩, ⟨"b9", 1⟩]).selectedFiles
      = [⟨"a.jpg", 100⟩] ∧
    (handleFileSelection ⟨[⟨"a.jpg", 100⟩], ""⟩
      [⟨"b0", 1⟩, ⟨"b1", 1⟩, ⟨"b2", 1⟩, ⟨"b3", 1⟩, ⟨"b4", 1⟩,
       ⟨"b5", 1⟩, ⟨"b6", 1⟩, ⟨"b7", 1⟩, ⟨"b8", 1⟩, ⟨"b9", 1⟩]).error
      = capErrorMessage 1 10 :=
  fileCap_rejects_unchanged ⟨[⟨"a.jpg", 100⟩], ""⟩
    [⟨"b0", 1⟩, ⟨"b1", 1⟩, ⟨"b2", 1⟩, ⟨"b3", 1⟩, ⟨"b4", 1⟩,
     ⟨"b5", 1⟩, ⟨"b6", 1⟩, ⟨"b7", 1⟩, ⟨"b8", 1⟩, ⟨"b9", 1⟩]
    (by decide) (by decide)

/-- C10: the cap check counts the chosen files before deduplication:
even when deduplication would keep the total within 10 (here expressed by
the hypothesis that the deduplicated addition stays within the cap), a
raw total above 10 is rejected with the cap error and nothing is added. -/
theorem cap_counts_before_dedup (st : SelectionState) (newFiles : List FileMeta)
    (hne : newFiles ≠ [])
    (hcap : 10 < st.selectedFiles.length + newFiles.length)
    (_hdedup : st.selectedFiles.length + (filesToAdd st.selectedFiles newFiles).length ≤ 10) :
    (handleFileSelection st newFiles).selectedFiles = st.selectedFiles ∧
    (handleFileSelection st newFiles).error =
      capErrorMessage st.selectedFiles.length newFiles.length := by
  rw [cap_reject st newFiles hne hcap]
  exact ⟨rfl, rfl⟩

/-- Witness for C10: ten selected files plus one newly chosen duplicate of
the first is rejected, although deduplication would have added nothing. -/
theorem cap_counts_before_dedup_w :
    (handleFileSelection ⟨[⟨"f0", 1⟩, ⟨"f1", 1⟩, ⟨"f2", 1⟩, ⟨"f3", 1⟩, ⟨"f4", 1⟩,
        ⟨"f5", 1⟩, ⟨"f6", 1⟩, ⟨"f7", 1⟩, ⟨"f8", 1⟩, ⟨"f9", 1⟩], ""⟩
      [⟨"f0", 1⟩]).selectedFiles
      = [⟨"f0", 1⟩, ⟨"f1", 1⟩, ⟨"f2", 1⟩, ⟨"f3", 1⟩, ⟨"f4", 1⟩,
         ⟨"f5", 1⟩, ⟨"f6", 1⟩, ⟨"f7", 1⟩, ⟨"f8", 1⟩, ⟨"f9", 1⟩] ∧
    (handleFileSelection ⟨[⟨"f0", 1⟩, ⟨"f1", 1⟩, ⟨"f2", 1⟩, ⟨"f3", 1⟩, ⟨"f4", 1⟩,
        ⟨"f5", 1⟩, ⟨"f6", 1⟩, ⟨"f7", 1⟩, ⟨"f8", 1⟩, ⟨"f9", 1⟩], ""⟩
      [⟨"f0", 1⟩]).error = capErrorMessage 10 1 :=
  cap_counts_before_dedup
    ⟨[⟨"f0", 1⟩, ⟨"f1", 1⟩, ⟨"f2", 1⟩, ⟨"f3", 1⟩, ⟨"f4", 1⟩,
      ⟨"f5", 1⟩, ⟨"f6", 1⟩, ⟨"f7", 1⟩, ⟨"f8", 1⟩, ⟨"f9", 1⟩], ""⟩
    [⟨"f0", 1⟩] (by decide) (by decide) (by decide)

/-- C7: `downloadExcel` writes nothing and reports an inline error when a
precondition fails: with the XLSX script not yet loaded it reports the
library-still-loading message, and with an empty result set it reports
the no-data message; in both cases no file value is produced (and the
function is pure, so the result set is untouched). -/
theorem downloadExcel_precondition_errors (extractedData : List ExtractedInvoiceData) :
    downloadExcel false extractedData
      = .errorMsg "Excel library is still loading. Please try again in a moment." ∧
    downloadExcel true [] = .errorMsg "No data to export." ∧
    (∀ f, downloadExcel false extractedData ≠ .written f) ∧
    (∀ f, downloadExcel true ([] : List ExtractedInvoiceData) ≠ .written f) := by
  refine ⟨rfl, rfl, fun f h => ?_, fun f h => ?_⟩ <;> cases h

/-- C9: every per-file executor resolves (with the record `executorRecord`
computes) on all of its code paths and never rejects, so the joint
`promiseAll` over a batch always resolves with the per-slot records and
the batch-level catch is unreachable from per-file outcomes. -/
theorem executor_always_resolves (slot : FileSlot) (slots : List FileSlot) :
    runExecutor slot = .resolved (executorRecord slot) ∧
    promiseAll (slots.map runExecutor) = .resolved (slots.map executorRecord) ∧
    (∀ e, promiseAll (slots.map runExecutor) ≠ .rejected e) := by
  refine ⟨runExecutor_eq slot, ?_, ?_⟩
  · rw [map_runExecutor, promiseAll_map_resolved]
  · intro e h
    rw [map_runExecutor, promiseAll_map_resolved] at h
    cases h

/-- C1: a non-empty batch of k selected files (k at most 10) produces a
result set of exactly k records, the record in slot i carrying the name of
input file i; the joint await fills slots positionally, so any completion
order covering all tasks yields the same input-ordered list, while an order
missing some task leaves that slot unfilled (no result surfaced before
every task resolves). -/
theorem processInvoices_batch_complete (slots : List FileSlot) (i k : Nat)
    (order stalled : List Nat)
    (h1 : 1 ≤ slots.length) (_h2 : slots.length ≤ 10)
    (_hi : i < slots.length)
    (hcover : ∀ j, j < slots.length → j ∈ order)
    (hk : k < slots.length) (hks : k ∉ stalled) :
    ∃ rs : List ExtractedInvoiceData,
      processInvoices slots = .results rs ∧
      rs.length = slots.length ∧
      (rs[i]?).map ExtractedInvoiceData.fileName
        = (slots[i]?).map (fun s => s.file.name) ∧
      settleInOrder (slots.map executorRecord) order
        = (slots.map executorRecord).map some ∧
      (settleInOrder (slots.map executorRecord) stalled)[k]? = some none := by
  have hne : slots ≠ [] := by
    intro h
    rw [h] at h1
    exact absurd h1 (by decide)
  refine ⟨(slots.map executorRecord).map sanitizeRecord,
    processInvoices_eq slots hne, ?_, ?_, ?_, ?_⟩
  · rw [List.length_map, List.length_map]
  · rw [List.getElem?_map, List.getElem?_map]
    cases hsi : slots[i]? with
    | none => rfl
    | some s =>
      simp only [Option.map_some']
      exact congrArg some (executorRecord_fileName s)
  · exact settleInOrder_complete _ order (by rw [List.length_map]; exact hcover)
  · exact settleInOrder_pending _ stalled k (by rw [List.length_map]; exact hk) hks

/-- Witness for C1: a two-file batch (a success and a read failure)
produces two records in input order, under the reversed completion order
[1, 0]; the completion order [0] leaves slot 1 pending. -/
theorem processInvoices_batch_complete_w :
    ∃ rs : List ExtractedInvoiceData,
      processInvoices [okSlot, readFailSlot] = .results rs ∧
      rs.length = [okSlot, readFailSlot].length ∧
      (rs[0]?).map ExtractedInvoiceData.fileName
        = ([okSlot, readFailSlot][0]?).map (fun s => s.file.name) ∧
      settleInOrder ([okSlot, readFailSlot].map executorRecord) [1, 0]
        = ([okSlot, readFailSlot].map executorRecord).map some ∧
      (settleInOrder ([okSlot, readFailSlot].map executorRecord) [0])[1]? = some none :=
  processInvoices_batch_complete [okSlot, readFailSlot] 0 1 [1, 0] [0]
    (by decide) (by decide) (by decide)
    (by
      intro j hj
      match j, hj with
      | 0, _ => exact List.mem_cons_of_mem _ (List.mem_cons_self 0 [])
      | 1, _ => exact List.mem_cons_self 1 [0])
    (by decide) (by decide)

/-- C2: a slot whose read errors, whose decoded payload is absent, or whose
extraction call throws resolves the all-"Error" record (still carrying its
file name, before sanitization), and replacing slot i's environment with
such a failure leaves the batch record at any other position j
unchanged. -/
theorem perFile_failure_isolated (slots : List FileSlot) (i j : Nat) (slot : FileSlot)
    (rs rs' : List ExtractedInvoiceData)
    (hfail : slot.read = .onerror ∨ slot.read = .onload none ∨
             ∃ e, extractInvoiceData slot.fetch slot.parse = .error e)
    (hij : j ≠ i)
    (hrs : processInvoices slots = .results rs)
    (hrs' : processInvoices (slots.set i slot) = .results rs') :
    runExecutor slot = .resolved
      { fileName := slot.file.name, invoiceNumber := "Error",
        companyNumber := "Error", date := "Error", totalAmount := "Error" } ∧
    rs[j]? = rs'[j]? := by
  constructor
  · unfold runExecutor
    rcases hfail with h | h | ⟨e, h⟩
    · rw [h]; rfl
    · rw [h]; rfl
    · cases hr : slot.read with
      | onerror => rfl
      | onload b =>
        cases b with
        | none => rfl
        | some p => rw [h]; rfl
  · have hne : slots ≠ [] := by
      intro h
      rw [h] at hrs
      simp [processInvoices] at hrs
    have hne' : slots.set i slot ≠ [] := by
      intro h
      have hl := congrArg List.length h
      rw [List.length_set] at hl
      exact hne (List.length_eq_zero.mp hl)
    rw [processInvoices_eq slots hne] at hrs
    rw [processInvoices_eq _ hne'] at hrs'
    injection hrs with hA
    injection hrs' with hB
    rw [← hA, ← hB]
    rw [List.getElem?_map, List.getElem?_map, List.getElem?_map, List.getElem?_map,
      List.getElem?_set_ne (Ne.symm hij)]

/-- Witness for C2: replacing the second slot of a two-success batch with
an HTTP 429 extraction failure turns that record all-"Error" while the
first record is untouched. -/
theorem perFile_failure_isolated_w :
    runExecutor rateLimitedSlot = .resolved
      { fileName := "b.jpg", invoiceNumber := "Error", companyNumber := "Error",
        date := "Error", totalAmount := "Error" } ∧
    ([⟨"a.jpg", "1001", "ABN 12 345 678 901", "12/03/2024", "$1,234.50"⟩,
      ⟨"d.jpg", "7", "N/A", "N/A", "N/A"⟩] : List ExtractedInvoiceData)[0]?
      = ([⟨"a.jpg", "1001", "ABN 12 345 678 901", "12/03/2024", "$1,234.50"⟩,
          ⟨"b.jpg", "", "Error", "Error", "Error"⟩] : List ExtractedInvoiceData)[0]? :=
  perFile_failure_isolated [okSlot, okSlot2] 1 0 rateLimitedSlot
    [⟨"a.jpg", "1001", "ABN 12 345 678 901", "12/03/2024", "$1,234.50"⟩,
     ⟨"d.jpg", "7", "N/A", "N/A", "N/A"⟩]
    [⟨"a.jpg", "1001", "ABN 12 345 678 901", "12/03/2024", "$1,234.50"⟩,
     ⟨"b.jpg", "", "Error", "Error", "Error"⟩]
    (Or.inr (Or.inr ⟨"Server extraction failed: Too Many Requests", rfl⟩))
    (by decide) rfl rfl

/-- C3: every record of a completed run has a digits-only invoiceNumber
(the pattern [0-9]*): the result set is exactly the per-slot records with
the sanitizer mapped over every one of them, and sanitizing the sentinels
"Error" and "N/A" yields the empty string. -/
theorem invoiceNumber_digits_invariant (slots : List FileSlot)
    (rs : List ExtractedInvoiceData) (r : ExtractedInvoiceData)
    (hrs : processInvoices slots = .results rs) (hr : r ∈ rs) :
    digitsOnly r.invoiceNumber = true ∧
    rs = (slots.map executorRecord).map sanitizeRecord ∧
    sanitizeInvoiceNumber "Error" = "" ∧
    sanitizeInvoiceNumber "N/A" = "" := by
  have hne : slots ≠ [] := by
    intro h
    rw [h] at hrs
    simp [processInvoices] at hrs
  rw [processInvoices_eq slots hne] at hrs
  injection hrs with hA
  refine ⟨?_, hA.symm, rfl, rfl⟩
  rw [← hA] at hr
  rcases List.mem_map.mp hr with ⟨q, _hq, hqr⟩
  rw [← hqr]
  exact digitsOnly_sanitize q.invoiceNumber

/-- Witness for C3: in a batch of a read failure and a success, the failed
file's record carries the empty (digits-only) sanitized "Error"
invoiceNumber. -/
theorem invoiceNumber_digits_invariant_w :
    digitsOnly (ExtractedInvoiceData.invoiceNumber
      ⟨"c.jpg", "", "Error", "Error", "Error"⟩) = true ∧
    ([⟨"c.jpg", "", "Error", "Error", "Error"⟩,
      ⟨"a.jpg", "1001", "ABN 12 345 678 901", "12/03/2024", "$1,234.50"⟩] :
        List ExtractedInvoiceData)
      = ([readFailSlot, okSlot].map executorRecord).map sanitizeRecord ∧
    sanitizeInvoiceNumber "Error" = "" ∧
    sanitizeInvoiceNumber "N/A" = "" :=
  invoiceNumber_digits_invariant [readFailSlot, okSlot]
    [⟨"c.jpg", "", "Error", "Error", "Error"⟩,
     ⟨"a.jpg", "1001", "ABN 12 345 678 901", "12/03/2024", "$1,234.50"⟩]
    ⟨"c.jpg", "", "Error", "Error", "Error"⟩
    rfl (by decide)

/-- Counterexample to C6 as stated: choosing one batch that contains the
same (name, size) pair twice appends both copies, so a selection with
pairwise-distinct pairs (here the empty one) loses distinctness after the
call. -/
theorem dedup_invariant_cex :
    distinctKeys (SelectionState.selectedFiles ⟨[], ""⟩) ∧
    ¬ distinctKeys (handleFileSelection ⟨[], ""⟩
        [⟨"a.jpg", 100⟩, ⟨"a.jpg", 100⟩]).selectedFiles := by
  decide

/-- C6 amended: when the existing selection and the newly chosen batch each
have pairwise-distinct (name, size) pairs and the combined count stays
within the 10-file cap, the handler appends exactly the chosen files whose
pair matches no already-selected file, the selection keeps pairwise-distinct
pairs (so a chosen file duplicating a selected one is not added again, also
when the batch consists only of such duplicates), and every chosen file
whose pair matches no selected file is appended. -/
theorem dedup_invariant_amended (st : SelectionState) (newFiles : List FileMeta)
    (hsel : distinctKeys st.selectedFiles) (hnew : distinctKeys newFiles)
    (hcap : st.selectedFiles.length + newFiles.length ≤ 10) :
    (handleFileSelection st newFiles).selectedFiles
      = st.selectedFiles ++ filesToAdd st.selectedFiles newFiles ∧
    distinctKeys (handleFileSelection st newFiles).selectedFiles ∧
    (∀ f ∈ newFiles, (∀ e ∈ st.selectedFiles, keyOf e ≠ keyOf f) →
      f ∈ (handleFileSelection st newFiles).selectedFiles) := by
  have hstruct : (handleFileSelection st newFiles).selectedFiles
      = st.selectedFiles ++ filesToAdd st.selectedFiles newFiles := by
    by_cases hne : newFiles = []
    · subst hne
      show st.selectedFiles = st.selectedFiles ++ filesToAdd st.selectedFiles []
      rw [show filesToAdd st.selectedFiles [] = [] from rfl, List.append_nil]
    · unfold handleFileSelection
      rw [if_pos (List.length_pos.mpr hne), if_neg (Nat.not_lt.mpr hcap)]
      by_cases h0 : 0 < (filesToAdd st.selectedFiles newFiles).length
      · rw [if_pos h0]
      · rw [if_neg h0,
          List.length_eq_zero.mp (Nat.eq_zero_of_not_pos h0), List.append_nil]
  refine ⟨hstruct, ?_, ?_⟩
  · rw [hstruct]
    unfold distinctKeys
    rw [List.map_append, List.nodup_append]
    refine ⟨hsel, ?_, ?_⟩
    · exact List.Nodup.sublist
        (List.Sublist.map keyOf (List.filter_sublist newFiles)) hnew
    · intro x hx1 hx2
      rcases List.mem_map.mp hx1 with ⟨e, he, hxe⟩
      rcases List.mem_map.mp hx2 with ⟨g, hg, hxg⟩
      rcases mem_filesToAdd.mp hg with ⟨_hgnew, hgkeys⟩
      exact hgkeys e he (hxe.trans hxg.symm)
  · intro f hf hfnew
    rw [hstruct]
    exact List.mem_append_right _ (mem_filesToAdd.mpr ⟨hf, hfnew⟩)

/-- Witness for C6 amended: one selected file, a chosen batch of its
duplicate plus one genuinely new file; only the new file is appended and
distinctness is kept. -/
theorem dedup_invariant_amended_w :
    (handleFileSelection ⟨[⟨"a.jpg", 100⟩], ""⟩
        [⟨"a.jpg", 100⟩, ⟨"b.jpg", 200⟩]).selectedFiles
      = [⟨"a.jpg", 100⟩] ++ filesToAdd [⟨"a.jpg", 100⟩]
          [⟨"a.jpg", 100⟩, ⟨"b.jpg", 200⟩] ∧
    distinctKeys (handleFileSelection ⟨[⟨"a.jpg", 100⟩], ""⟩
        [⟨"a.jpg", 100⟩, ⟨"b.jpg", 200⟩]).selectedFiles ∧
    (∀ f ∈ ([⟨"a.jpg", 100⟩, ⟨"b.jpg", 200⟩] : List FileMeta),
      (∀ e ∈ ([⟨"a.jpg", 100⟩] : List FileMeta), keyOf e ≠ keyOf f) →
      f ∈ (handleFileSelection ⟨[⟨"a.jpg", 100⟩], ""⟩
        [⟨"a.jpg", 100⟩, ⟨"b.jpg", 200⟩]).selectedFiles) :=
  dedup_invariant_amended ⟨[⟨"a.jpg", 100⟩], ""⟩
    [⟨"a.jpg", 100⟩, ⟨"b.jpg", 200⟩]
    (by decide) (by decide) (by decide)

/-- C8: with the library loaded and a non-empty result set, the export
writes the file InvoiceData.xlsx with the single sheet Invoices, one row
per record whose five columns appear in the fixed order, and a last column
width equal to the longest source-file name length, floored at 10. -/
theorem downloadExcel_writes_workbook (extractedData : List ExtractedInvoiceData)
    (i : Nat) (item r : ExtractedInvoiceData)
    (hne : extractedData ≠ [])
    (hi : extractedData[i]? = some item) (hr : r ∈ extractedData) :
    ∃ w : Nat,
      downloadExcel true extractedData = .written
        { fileName := "InvoiceData.xlsx", sheetName := "Invoices",
          rows := extractedData.map toSheetRow, colWidths := [20, 20, 15, 15, w] } ∧
      (extractedData.map toSheetRow)[i]? = some
        [("Invoice Number", item.invoiceNumber),
         ("Company Number", item.companyNumber),
         ("Date", item.date),
         ("Total Amount", item.totalAmount),
         ("Source File", item.fileName)] ∧
      10 ≤ w ∧ r.fileName.length ≤ w ∧
      (w = 10 ∨ ∃ q ∈ extractedData, w = q.fileName.length) := by
  refine ⟨(extractedData.map toSheetRow).foldl
      (fun w r => max w (sourceFileOf r).length) 10, ?_, ?_, ?_, ?_, ?_⟩
  · unfold downloadExcel
    rw [if_neg (by decide : ¬((!true) = true)),
      if_neg (fun h => hne (List.length_eq_zero.mp h))]
  · rw [List.getElem?_map, hi]
    rfl
  · exact foldl_max_init_le _ _ 10
  · have h' : (sourceFileOf (toSheetRow r)).length ≤
        (extractedData.map toSheetRow).foldl
          (fun w r => max w (sourceFileOf r).length) 10 :=
      foldl_max_elem_le (fun row => (sourceFileOf row).length)
        (extractedData.map toSheetRow) 10 (toSheetRow r) (List.mem_map_of_mem _ hr)
    rwa [sourceFileOf_toSheetRow] at h'
  · rcases foldl_max_eq_init_or_elem (fun row => (sourceFileOf row).length)
      (extractedData.map toSheetRow) 10 with h | ⟨row, hrow, h⟩
    · exact Or.inl h
    · rcases List.mem_map.mp hrow with ⟨q, hq, hqrow⟩
      refine Or.inr ⟨q, hq, ?_⟩
      have h' : (extractedData.map toSheetRow).foldl
          (fun w r => max w (sourceFileOf r).length) 10
          = (sourceFileOf row).length := h
      rw [← hqrow, sourceFileOf_toSheetRow] at h'
      exact h'

/-- Witness for C8: exporting two concrete records writes the fixed
workbook whose last column width is the length of the longer file name. -/
theorem downloadExcel_writes_workbook_w :
    ∃ w : Nat,
      downloadExcel true
        [⟨"a.jpg", "1001", "ABN", "12/03/2024", "$1,234.50"⟩,
         ⟨"averylonginvoicescan.png", "", "Error", "Error", "Error"⟩] = .written
        { fileName := "InvoiceData.xlsx", sheetName := "Invoices",
          rows := ([⟨"a.jpg", "1001", "ABN", "12/03/2024", "$1,234.50"⟩,
            ⟨"averylonginvoicescan.png", "", "Error", "Error", "Error"⟩] :
              List ExtractedInvoiceData).map toSheetRow,
          colWidths := [20, 20, 15, 15, w] } ∧
      (([⟨"a.jpg", "1001", "ABN", "12/03/2024", "$1,234.50"⟩,
         ⟨"averylonginvoicescan.png", "", "Error", "Error", "Error"⟩] :
            List ExtractedInvoiceData).map toSheetRow)[1]? = some
        [("Invoice Number", ""), ("Company Number", "Error"), ("Date", "Error"),
         ("Total Amount", "Error"), ("Source File", "averylonginvoicescan.png")] ∧
      10 ≤ w ∧
      String.length "a.jpg" ≤ w ∧
      (w = 10 ∨ ∃ q ∈ ([⟨"a.jpg", "1001", "ABN", "12/03/2024", "$1,234.50"⟩,
          ⟨"averylonginvoicescan.png", "", "Error", "Error", "Error"⟩] :
            List ExtractedInvoiceData), w = q.fileName.length) :=
  downloadExcel_writes_workbook
    [⟨"a.jpg", "1001", "ABN", "12/03/2024", "$1,234.50"⟩,
     ⟨"averylonginvoicescan.png", "", "Error", "Error", "Error"⟩]
    1 ⟨"averylonginvoicescan.png", "", "Error", "Error", "Error"⟩
    ⟨"a.jpg", "1001", "ABN", "12/03/2024", "$1,234.50"⟩
    (by decide) (by decide) (by decide)

